import Mathlib

/-!
Verification development for the vec4ir retrieval engine
(source file vec4ir/base.py).

The pipeline: a boolean term-matching stage (TermMatch) narrows the
collection to candidates sharing at least one query term, a vector-space
ranking stage (external nearest-neighbor capability) orders candidates,
the index store grows incrementally, and evaluation joins ranked results
against relevance judgments.

Machine representation choices:
* a numpy boolean matrix is a rectangular List (List Bool) (rows are
  documents, columns are vocabulary terms);
* the tf-idf weighted matrix is a List (List Rat);
* document ids (numpy arrays of integers) are List Int;
* a raised Python exception is Except.error with the exception text;
* the external vectorizers (CountVectorizer / TfidfVectorizer transform)
  are parameters cvt / tft producing one row per document, and the
  external NearestNeighbors ranking capability is a parameter nnRank.
-/

namespace Vec4ir

/-- Indices of the nonzero (true) entries of a boolean vector, ascending.
This is numpy nonzero restricted to one row: for a (1 x n) array the
second component of the result. -/
def nonzeroIdx (v : List Bool) : List Nat :=
  (List.range v.length).filter (fun j => v.getD j false)

/-- Number of columns of a rectangular row-major matrix (numpy arrays are
rectangular, so the first row's length is the column count). -/
def numCols (X : List (List Bool)) : Nat := (X.headD []).length

/-- numpy transpose of a rectangular boolean matrix: column j of X becomes
row j of the result. -/
def npTranspose (X : List (List Bool)) : List (List Bool) :=
  (List.range (numCols X)).map (fun j => X.map (fun row => row.getD j false))

/-- Insert a value into a strictly sorted duplicate-free list, keeping it
strictly sorted and duplicate-free. -/
def insertSorted (x : Nat) : List Nat → List Nat
  | [] => [x]
  | y :: ys =>
    if x < y then x :: y :: ys
    else if x = y then y :: ys
    else y :: insertSorted x ys

/-- numpy unique: the distinct values of a list in ascending order. -/
def npUnique (l : List Nat) : List Nat := l.foldr insertSorted []

/-- TermMatch from base.py: transpose the term-document matrix into an
inverted index, select the rows of the query's nonzero terms, and return
the unique document (column) indices that are nonzero in at least one
selected term row. -/
def TermMatch (X : List (List Bool)) (q : List Bool) : List Nat :=
  let inverted_index := npTranspose X
  let query_terms := nonzeroIdx q
  let matching_terms := query_terms.filterMap (fun j => inverted_index.get? j)
  let matching_doc_indices := npUnique ((matching_terms.map nonzeroIdx).flatten)
  matching_doc_indices

/-! Lemmas about the sorted-unique accumulation used by npUnique. -/

theorem mem_insertSorted (a x : Nat) (l : List Nat) :
    a ∈ insertSorted x l ↔ a = x ∨ a ∈ l := by
  induction l with
  | nil => simp [insertSorted]
  | cons y ys ih =>
    by_cases hlt : x < y
    · simp [insertSorted, hlt]
    · by_cases heq : x = y
      · subst heq
        simp [insertSorted, hlt]
      · simp [insertSorted, hlt, heq, ih]
        tauto

theorem sorted_insertSorted (x : Nat) (l : List Nat)
    (h : l.Sorted (· < ·)) : (insertSorted x l).Sorted (· < ·) := by
  induction l with
  | nil => simp [insertSorted]
  | cons y ys ih =>
    rw [List.sorted_cons] at h
    by_cases hlt : x < y
    · rw [insertSorted, if_pos hlt, List.sorted_cons]
      refine ⟨?_, by rw [List.sorted_cons]; exact h⟩
      intro b hb
      rcases List.mem_cons.mp hb with hb | hb
      · omega
      · have := h.1 b hb; omega
    · by_cases heq : x = y
      · rw [insertSorted, if_neg hlt, if_pos heq, List.sorted_cons]
        exact h
      · rw [insertSorted, if_neg hlt, if_neg heq, List.sorted_cons]
        refine ⟨?_, ih h.2⟩
        intro b hb
        rcases (mem_insertSorted b x ys).mp hb with hb | hb
        · omega
        · exact h.1 b hb

theorem sorted_npUnique (l : List Nat) : (npUnique l).Sorted (· < ·) := by
  induction l with
  | nil => simp [npUnique]
  | cons a l ih => exact sorted_insertSorted a (npUnique l) ih

theorem mem_npUnique (a : Nat) (l : List Nat) : a ∈ npUnique l ↔ a ∈ l := by
  induction l with
  | nil => simp [npUnique]
  | cons b l ih =>
    show a ∈ insertSorted b (npUnique l) ↔ _
    rw [mem_insertSorted, ih]
    simp

/-! Membership characterization of TermMatch on rectangular input. -/

theorem mem_nonzeroIdx (j : Nat) (v : List Bool) :
    j ∈ nonzeroIdx v ↔ j < v.length ∧ v.getD j false = true := by
  simp [nonzeroIdx, List.mem_filter, List.mem_range]

theorem get?_npTranspose (X : List (List Bool)) (j : Nat) (hj : j < numCols X) :
    (npTranspose X).get? j = some (X.map (fun row => row.getD j false)) := by
  rw [npTranspose, List.get?_eq_getElem?, List.getElem?_map, List.getElem?_range hj]
  rfl

theorem getD_map_row (X : List (List Bool)) (j i : Nat) (hi : i < X.length) :
    (X.map (fun row => row.getD j false)).getD i false
      = (X.getD i []).getD j false := by
  rw [List.getD_eq_getElem?_getD, List.getElem?_map, List.getElem?_eq_getElem hi]
  rw [List.getD_eq_getElem?_getD (l := X), List.getElem?_eq_getElem hi]
  rfl

/-- The matching characterization of TermMatch: on a rectangular matrix
whose rows have the query's length, the returned indices are exactly the
documents sharing at least one term with the query. -/
theorem TermMatch_mem (X : List (List Bool)) (q : List Bool)
    (hw : ∀ row ∈ X, row.length = q.length) (i : Nat) :
    i ∈ TermMatch X q ↔
      i < X.length ∧ ∃ j, j < q.length ∧ q.getD j false = true ∧
        (X.getD i []).getD j false = true := by
  unfold TermMatch
  rw [mem_npUnique]
  simp only [List.mem_flatten, List.mem_map, List.mem_filterMap]
  constructor
  · rintro ⟨s, ⟨t, ⟨j, hjq, hjt⟩, rfl⟩, hi⟩
    have hjc : j < numCols X := by
      by_contra hge
      rw [npTranspose, List.get?_eq_getElem?, List.getElem?_map,
        List.getElem?_eq_none (by simpa using hge)] at hjt
      exact Option.noConfusion hjt
    rw [get?_npTranspose X j hjc] at hjt
    cases hjt
    rw [mem_nonzeroIdx] at hi
    have hilen : i < X.length := by simpa using hi.1
    obtain ⟨hjlen, hjtrue⟩ := (mem_nonzeroIdx j q).mp hjq
    refine ⟨hilen, j, hjlen, hjtrue, ?_⟩
    have := hi.2
    rwa [getD_map_row X j i hilen] at this

  · rintro ⟨hilen, j, hjlen, hjq, hij⟩
    have hX0 : X ≠ [] := by
      intro h; subst h; simp at hilen
    have hcols : numCols X = q.length := by
      cases X with
      | nil => exact absurd rfl hX0
      | cons r rs => exact hw r (List.mem_cons_self r rs)
    refine ⟨nonzeroIdx (X.map (fun row => row.getD j false)),
      ⟨X.map (fun row => row.getD j false),
        ⟨j, (mem_nonzeroIdx j q).mpr ⟨hjlen, hjq⟩,
          get?_npTranspose X j (by omega)⟩, rfl⟩, ?_⟩
    rw [mem_nonzeroIdx]
    constructor
    · simpa using hilen
    · rwa [getD_map_row X j i hilen]

/-! The index store.  RetrievalBase keeps the boolean (pseudo-inverted)
index, the ids and the document count; TfidfRetrieval additionally keeps
the tf-idf weighted matrix.  One structure models the object of the
subclass; the base-class methods do not touch the weighted matrix field.
The source attribute assigning the raw documents is commented out in the
code, so the corresponding field is an Option that no operation ever
sets. -/

structure TfidfState (Doc : Type) where
  /-- the boolean term-presence matrix (pseudo-inverted index) -/
  _inv_X : List (List Bool)
  /-- the raw documents; the assignment in the source is commented out,
  so no operation ever sets this attribute -/
  _fit_X : Option (List Doc)
  /-- the document ids -/
  _y : List Int
  /-- the stored document count -/
  n_docs : Nat
  /-- the tf-idf weighted matrix of the subclass -/
  _X : List (List Rat)

/-- A freshly constructed, unfitted store: no attribute has been set. -/
def initState (Doc : Type) : TfidfState Doc :=
  { _inv_X := [], _fit_X := none, _y := [], n_docs := 0, _X := [] }

/-- The shape check at the head of both fitting operations: a supplied id
sequence whose length differs from the batch raises a ValueError. -/
def checkXy {Doc : Type} (X : List Doc) (y : Option (List Int)) :
    Except String Unit :=
  match y with
  | none => Except.ok ()
  | some ys =>
    if X.length ≠ ys.length then
      Except.error "Shapes of X and y do not match."
    else Except.ok ()

/-- The base fitting operation: check shapes, vectorize the batch into
the boolean index (one boolean row per document), assign the ids (the
supplied ones, or 0..n-1), and store the document count.  The raw-source
assignment is commented out in the code, so the field is left untouched. -/
def RetrievalBase_fit {Doc : Type} (cvt : Doc → List Bool)
    (s : TfidfState Doc) (X : List Doc) (y : Option (List Int)) :
    Except String (TfidfState Doc) := do
  let _ ← checkXy X y
  let inv := X.map cvt
  let n := X.length
  let ids := match y with
    | none => (List.range n).map (fun (i : Nat) => (i : Int))
    | some ys => ys
  Except.ok { s with _inv_X := inv, _y := ids, n_docs := n }

/-- The base extension operation (incremental fitting): check shapes,
row-stack the vectorized batch onto the boolean index, compute the next
id as the maximum stored id plus one (numpy amax raises on an empty
array), append the supplied or auto-assigned ids, and bump the count. -/
def RetrievalBase_extend {Doc : Type} (cvt : Doc → List Bool)
    (s : TfidfState Doc) (X : List Doc) (y : Option (List Int)) :
    Except String (TfidfState Doc) := do
  let _ ← checkXy X y
  let inv := s._inv_X ++ X.map cvt
  match s._y.max? with
  | none =>
    Except.error "zero-size array to reduction operation maximum"
  | some m =>
    let next_id := m + 1
    let ids := match y with
      | none => (List.range X.length).map (fun (i : Nat) => next_id + (i : Int))
      | some ys => ys
    Except.ok { s with _inv_X := inv, _y := s._y ++ ids,
                       n_docs := s.n_docs + X.length }

/-- Result of the matching operation: either the matched row indices, or
the matched raw documents together with their ids. -/
inductive MatchResult (Doc : Type) where
  | indices (ind : List Nat)
  | docsAndIds (docs : List Doc) (ids : List Int)

/-- The matching operation with the default term-matching configuration:
vectorize the query, run TermMatch over the boolean index, and either
return the indices, or look up the raw documents — an attribute that no
operation ever sets, so that branch raises an AttributeError. -/
def RetrievalBase_matching {Doc : Type} (cvt : Doc → List Bool)
    (s : TfidfState Doc) (query : Doc) (return_indices : Bool) :
    Except String (MatchResult Doc) :=
  let q := cvt query
  let ind := TermMatch s._inv_X q
  if return_indices then Except.ok (MatchResult.indices ind)
  else
    match s._fit_X with
    | none => Except.error "AttributeError"
    | some fx =>
      Except.ok (MatchResult.docsAndIds (ind.filterMap fx.get?)
        (ind.filterMap s._y.get?))

/-- Subclass fit: base fit, then build the tf-idf weighted matrix for the
same batch (one weighted row per document). -/
def TfidfRetrieval_fit {Doc : Type} (cvt : Doc → List Bool)
    (tft : Doc → List Rat) (s : TfidfState Doc) (X : List Doc)
    (y : Option (List Int)) : Except String (TfidfState Doc) := do
  let s1 ← RetrievalBase_fit cvt s X y
  Except.ok { s1 with _X := X.map tft }

/-- Subclass extension: base extension, then row-stack the weighted rows
of the new batch onto the weighted matrix. -/
def TfidfRetrieval_extend {Doc : Type} (cvt : Doc → List Bool)
    (tft : Doc → List Rat) (s : TfidfState Doc) (X : List Doc)
    (y : Option (List Int)) : Except String (TfidfState Doc) := do
  let s1 ← RetrievalBase_extend cvt s X y
  Except.ok { s1 with _X := s1._X ++ X.map tft }

/-- The query operation: boolean matching first, restriction of the
weighted matrix and of the ids to the matched rows, early return of the
empty result when nothing is to be retrieved, and otherwise the external
nearest-neighbor capability (nnRank) ranks the restricted rows against
the weighted query and its local indices are mapped back to ids. -/
def TfidfRetrieval_query {Doc : Type} (cvt : Doc → List Bool)
    (tft : Doc → List Rat)
    (nnRank : List (List Rat) → List Rat → Nat → List Nat)
    (s : TfidfState Doc) (query : Doc) (k : Nat) : List Int :=
  let matching_ind := TermMatch s._inv_X (cvt query)
  let Xm := matching_ind.map (fun i => s._X.getD i [])
  let matched_doc_ids := matching_ind.map (fun i => s._y.getD i 0)
  let n_match := matching_ind.length
  let n_ret := min n_match k
  if n_ret = 0 then []
  else
    let q := tft query
    let ind := nnRank Xm q n_ret
    ind.map (fun i => matched_doc_ids.getD i 0)

/-! Evaluation.  The relevance judgments come in one of two shapes: a
flat mapping keyed by (query id, document id) pairs — a structure with a
defaulting get operation — or a nested sequence indexed by query id whose
entries map document ids to grades — plain indexing without a default.
The source first tries the defaulting pair lookup and falls back to
nested indexing when the judgment object has no get attribute; only that
AttributeError is caught, so a missing key in the nested shape escapes. -/

inductive Judgments where
  | flat (m : List ((Nat × Int) × Int))
  | nested (m : List (List (Int × Int)))

/-- One relevance lookup, per judgment shape: the flat shape defaults a
missing pair to 0; the nested shape raises on a missing query id
(IndexError) or a missing document id (KeyError). -/
def lookupRelevance (Y : Judgments) (qid : Nat) (docid : Int) :
    Except String Int :=
  match Y with
  | Judgments.flat m =>
    Except.ok
      (((m.find? (fun p => p.1.1 == qid && p.1.2 == docid)).map
        (fun p => p.2)).getD 0)
  | Judgments.nested m =>
    match m.get? qid with
    | none => Except.error "IndexError"
    | some d =>
      match d.find? (fun p => p.1 == docid) with
      | none => Except.error "KeyError"
      | some p => Except.ok p.2

/-- The metric functions of the external rank_metrics module (imported by
the source, not part of it): reciprocal rank, average precision and NDCG
reducers over graded relevance sequences. -/
structure RankMetrics where
  mean_reciprocal_rank : List (List Int) → Rat
  mean_average_precision : List (List Int) → Rat
  ndcg_at_k : List Int → Nat → Rat

/-- Average of per-query NDCG values (np.mean over the per-row scores). -/
def average_ndcg_at_k (rm : RankMetrics) (rs : List (List Int)) (k : Nat) :
    Rat :=
  (rs.map (fun r => rm.ndcg_at_k r k)).sum / (rs.length : Rat)

/-- The three recognized metric names, in the source's order. -/
def VALID_METRICS : List String :=
  ["mean_reciprocal_rank", "mean_average_precision", "average_ndcg_at_k"]

/-- The relevance replacement for one query's result list, left to right,
stopping at the first raised lookup (as the Python comprehension does). -/
def relevancesOf (Y : Judgments) (qid : Nat) :
    List Int → Except String (List Int)
  | [] => Except.ok []
  | docid :: rest => do
    let r ← lookupRelevance Y qid docid
    let rs ← relevancesOf Y qid rest
    Except.ok (r :: rs)

/-- The evaluation loop's accumulation of per-query relevance sequences,
one entry per (query id, query) pair, in order. -/
def collectRs {Q : Type} (queryFn : Q → List Int) (Y : Judgments) :
    List (Nat × Q) → Except String (List (List Int))
  | [] => Except.ok []
  | (qid, query) :: rest => do
    let r ← relevancesOf Y qid (queryFn query)
    let rs ← collectRs queryFn Y rest
    Except.ok (r :: rs)

/-- The metric mapping assembled at the end of evaluate: one key per
requested recognized metric, inserted in the source's order. -/
def buildValues (rm : RankMetrics) (rs : List (List Int)) (k : Nat)
    (metrics : List String) : List (String × Rat) :=
  (if metrics.contains "average_ndcg_at_k" then
    [("average_ndcg_at_k", average_ndcg_at_k rm rs k)]
  else []) ++
  (if metrics.contains "mean_reciprocal_rank" then
    [("mean_reciprocal_rank", rm.mean_reciprocal_rank rs)]
  else []) ++
  (if metrics.contains "mean_average_precision" then
    [("mean_average_precision", rm.mean_average_precision rs)]
  else [])

/-- The evaluation loop: run the query for each (query id, query) pair,
replace each returned document id by its looked-up relevance grade, and
reduce the collected grade sequences through each requested metric. -/
def evaluate {Q : Type} (rm : RankMetrics) (queryFn : Q → List Int)
    (X : List (Nat × Q)) (Y : Judgments) (k : Nat)
    (metrics : List String) : Except String (List (String × Rat)) := do
  let rs ← collectRs queryFn Y X
  Except.ok (buildValues rm rs k metrics)

/-! Reduction of the Except monad's bind, used to unfold the operation
definitions written in do-notation. -/

@[simp]
theorem bindOk {ε α β : Type} (a : α) (f : α → Except ε β) :
    (Except.ok a >>= f) = f a := rfl

@[simp]
theorem bindError {ε α β : Type} (e : ε) (f : α → Except ε β) :
    ((Except.error e : Except ε α) >>= f) = Except.error e := rfl

/-! Theorems for the individual claims. -/

/-- The doctest fixture matrix: six documents over three terms. -/
def fixtureX : List (List Bool) :=
  [[false, false, true], [false, true, false], [false, true, true],
   [true, false, false], [true, false, true], [true, true, false]]

theorem TermMatch_sorted (X : List (List Bool)) (q : List Bool) :
    (TermMatch X q).Sorted (· < ·) :=
  sorted_npUnique _

/-- C1: for every boolean term-document matrix and boolean query vector
(of matching width), TermMatch returns exactly the row indices whose row
shares at least one nonzero position with the query, as a strictly
increasing (hence duplicate-free) sequence; on the fixture matrix the
query sharing only the third term yields rows 0, 2 and 4, the all-ones
query yields all six rows, and the all-zero query yields nothing. -/
theorem C1_TermMatch_correct :
    (∀ (X : List (List Bool)) (q : List Bool),
      (∀ row ∈ X, row.length = q.length) →
      (TermMatch X q).Sorted (· < ·) ∧
      ∀ i, i ∈ TermMatch X q ↔
        i < X.length ∧ ∃ j, j < q.length ∧ q.getD j false = true ∧
          (X.getD i []).getD j false = true) ∧
    TermMatch fixtureX [false, false, true] = [0, 2, 4] ∧
    TermMatch fixtureX [true, true, true] = [0, 1, 2, 3, 4, 5] ∧
    TermMatch fixtureX [false, false, false] = [] := by
  refine ⟨fun X q hw =>
    ⟨TermMatch_sorted X q, fun i => TermMatch_mem X q hw i⟩, ?_, ?_, ?_⟩
  · decide
  · decide
  · decide

/-- Witness for C1 at the fixture matrix and the third-term query. -/
theorem C1_witness :
    (TermMatch fixtureX [false, false, true]).Sorted (· < ·) ∧
    (0 ∈ TermMatch fixtureX [false, false, true] ↔
      0 < fixtureX.length ∧
      ∃ j, j < ([false, false, true] : List Bool).length ∧
        ([false, false, true] : List Bool).getD j false = true ∧
        (fixtureX.getD 0 []).getD j false = true) :=
  ⟨(C1_TermMatch_correct.1 fixtureX [false, false, true] (by decide)).1,
   (C1_TermMatch_correct.1 fixtureX [false, false, true] (by decide)).2 0⟩

/-- C7: when the boolean matching step finds no candidate, query returns
the empty sequence whatever the nearest-neighbor capability is — the
ranking stage is never consulted on an empty candidate set. -/
theorem C7_empty_match_short_circuit {Doc : Type} (cvt : Doc → List Bool)
    (tft : Doc → List Rat) (s : TfidfState Doc) (query : Doc) (k : Nat)
    (h : TermMatch s._inv_X (cvt query) = []) :
    ∀ nnRank, TfidfRetrieval_query cvt tft nnRank s query k = [] := by
  intro nnRank
  unfold TfidfRetrieval_query
  rw [h]
  simp

/-- Witness for C7: a store whose boolean index has no nonzero entry. -/
theorem C7_witness :
    TfidfRetrieval_query (fun d : Nat => [d == 0]) (fun d => [(d : Rat)])
      (fun _ _ _ => [0])
      (TfidfState.mk [[false]] none [0] 1 [[5]]) 3 10 = [] :=
  C7_empty_match_short_circuit (fun d : Nat => [d == 0])
    (fun d => [(d : Rat)])
    (TfidfState.mk [[false]] none [0] 1 [[5]]) 3 10 (by decide)
    (fun _ _ _ => [0])

/-- C10: no fitting operation ever sets the raw-document attribute, so on
a store built from a fresh object the matching operation with its default
return mode always raises an AttributeError, while the index-returning
mode succeeds with the TermMatch indices. -/
theorem C10_matching_default_fails {Doc : Type} (cvt : Doc → List Bool) :
    (∀ (s s' : TfidfState Doc) X y,
      RetrievalBase_fit cvt s X y = Except.ok s' → s'._fit_X = s._fit_X) ∧
    (∀ (s s' : TfidfState Doc) X y,
      RetrievalBase_extend cvt s X y = Except.ok s' →
        s'._fit_X = s._fit_X) ∧
    (∀ (s : TfidfState Doc) q, s._fit_X = none →
      RetrievalBase_matching cvt s q false = Except.error "AttributeError") ∧
    (∀ (s : TfidfState Doc) q,
      RetrievalBase_matching cvt s q true =
        Except.ok (MatchResult.indices (TermMatch s._inv_X (cvt q)))) := by
  refine ⟨?_, ?_, ?_, ?_⟩
  · intro s s' X y h
    cases y with
    | none =>
      simp [RetrievalBase_fit, checkXy] at h
      rw [← h]
    | some ys =>
      by_cases hlen : X.length = ys.length
      · simp [RetrievalBase_fit, checkXy, hlen] at h
        rw [← h]
      · simp [RetrievalBase_fit, checkXy, hlen] at h
  · intro s s' X y h
    rcases hmax : s._y.max? with _ | m
    all_goals cases y with
    | none =>
      simp [RetrievalBase_extend, checkXy, hmax] at h
      try rw [← h]
    | some ys =>
      by_cases hlen : X.length = ys.length
      all_goals simp [RetrievalBase_extend, checkXy, hmax, hlen] at h
      all_goals try rw [← h]
  · intro s q hfx
    simp [RetrievalBase_matching, hfx]
  · intro s q
    simp [RetrievalBase_matching]

/-- Witness for C10: a one-document fitted store. -/
theorem C10_witness :
    RetrievalBase_matching (fun d : Nat => [d == 0])
      (TfidfState.mk [[true]] none [0] 1 [[5]]) 0 false =
      Except.error "AttributeError" :=
  (C10_matching_default_fails (fun d : Nat => [d == 0])).2.2.1
    (TfidfState.mk [[true]] none [0] 1 [[5]]) 0 rfl

/-! Closed forms of the two fitting operations, used by the claims about
the index store. -/

theorem fit_none_eq {Doc : Type} (cvt : Doc → List Bool)
    (tft : Doc → List Rat) (s : TfidfState Doc) (X : List Doc) :
    TfidfRetrieval_fit cvt tft s X none =
      Except.ok ⟨X.map cvt, s._fit_X,
        (List.range X.length).map (fun (i : Nat) => (i : Int)),
        X.length, X.map tft⟩ := rfl

theorem fit_some_eq {Doc : Type} (cvt : Doc → List Bool)
    (tft : Doc → List Rat) (s : TfidfState Doc) (X : List Doc)
    (ys : List Int) :
    TfidfRetrieval_fit cvt tft s X (some ys) =
      if X.length = ys.length then
        Except.ok ⟨X.map cvt, s._fit_X, ys, X.length, X.map tft⟩
      else Except.error "Shapes of X and y do not match." := by
  by_cases hlen : X.length = ys.length
  · simp [TfidfRetrieval_fit, RetrievalBase_fit, checkXy, hlen]
  · simp [TfidfRetrieval_fit, RetrievalBase_fit, checkXy, hlen]

theorem extend_none_eq {Doc : Type} (cvt : Doc → List Bool)
    (tft : Doc → List Rat) (s : TfidfState Doc) (X : List Doc) :
    TfidfRetrieval_extend cvt tft s X none =
      match s._y.max? with
      | none => Except.error "zero-size array to reduction operation maximum"
      | some m => Except.ok ⟨s._inv_X ++ X.map cvt, s._fit_X,
          s._y ++ (List.range X.length).map (fun (i : Nat) => m + 1 + (i : Int)),
          s.n_docs + X.length, s._X ++ X.map tft⟩ := by
  rcases hm : s._y.max? with _ | m
  · simp [TfidfRetrieval_extend, RetrievalBase_extend, checkXy, hm]
  · simp [TfidfRetrieval_extend, RetrievalBase_extend, checkXy, hm]

theorem extend_some_eq {Doc : Type} (cvt : Doc → List Bool)
    (tft : Doc → List Rat) (s : TfidfState Doc) (X : List Doc)
    (ys : List Int) :
    TfidfRetrieval_extend cvt tft s X (some ys) =
      if X.length = ys.length then
        match s._y.max? with
        | none =>
          Except.error "zero-size array to reduction operation maximum"
        | some m => Except.ok ⟨s._inv_X ++ X.map cvt, s._fit_X,
            s._y ++ ys, s.n_docs + X.length, s._X ++ X.map tft⟩
      else Except.error "Shapes of X and y do not match." := by
  by_cases hlen : X.length = ys.length
  all_goals rcases hm : s._y.max? with _ | m
  all_goals simp [TfidfRetrieval_extend, RetrievalBase_extend, checkXy,
    hm, hlen]

/-- The row/id/vector alignment invariant of the index store: the boolean
matrix, the weighted matrix, and the id array have equally many rows,
equal to the stored document count. -/
def StoreInv {Doc : Type} (s : TfidfState Doc) : Prop :=
  s._inv_X.length = s._X.length ∧ s._X.length = s._y.length ∧
    s._y.length = s.n_docs

/-- C2: every successful fit establishes the row/id/vector alignment
invariant, and every successful incremental fit preserves it. -/
theorem C2_row_alignment {Doc : Type} (cvt : Doc → List Bool)
    (tft : Doc → List Rat) :
    (∀ (s s' : TfidfState Doc) (X : List Doc) (y : Option (List Int)),
      TfidfRetrieval_fit cvt tft s X y = Except.ok s' → StoreInv s') ∧
    (∀ (s s' : TfidfState Doc) (X : List Doc) (y : Option (List Int)),
      StoreInv s → TfidfRetrieval_extend cvt tft s X y = Except.ok s' →
      StoreInv s') := by
  constructor
  · intro s s' X y h
    cases y with
    | none =>
      rw [fit_none_eq] at h
      simp only [Except.ok.injEq] at h
      rw [← h]
      simp [StoreInv]
    | some ys =>
      rw [fit_some_eq] at h
      by_cases hlen : X.length = ys.length
      · rw [if_pos hlen] at h
        simp only [Except.ok.injEq] at h
        rw [← h]
        simp [StoreInv, hlen]
      · rw [if_neg hlen] at h
        exact absurd h (by simp)
  · intro s s' X y hs h
    obtain ⟨h1, h2, h3⟩ := hs
    cases y with
    | none =>
      rw [extend_none_eq] at h
      rcases hm : s._y.max? with _ | m
      all_goals simp only [hm, Except.ok.injEq] at h
      · exact absurd h (by simp)
      · rw [← h]
        simp only [StoreInv, List.length_append, List.length_map,
          List.length_range]
        omega
    | some ys =>
      rw [extend_some_eq] at h
      by_cases hlen : X.length = ys.length
      · rw [if_pos hlen] at h
        rcases hm : s._y.max? with _ | m
        all_goals simp only [hm, Except.ok.injEq] at h
        · exact absurd h (by simp)
        · rw [← h]
          simp only [StoreInv, List.length_append, List.length_map]
          omega
      · rw [if_neg hlen] at h
        exact absurd h (by simp)

/-- Vectorizers and stores used by the concrete witnesses: two boolean
vocabulary terms, a one-entry weighted row per document. -/
def wCvt : Nat → List Bool := fun d => [d == 0, d == 1]

def wTft : Nat → List Rat := fun d => [(d : Rat)]

/-- The store after fitting the single document 7 with default ids. -/
def wSt1 : TfidfState Nat :=
  ⟨[[false, false]], none, [0], 1, [wTft 7]⟩

/-- The store after further extending with the single document 8. -/
def wSt2 : TfidfState Nat :=
  ⟨[[false, false], [false, false]], none, [0, 1], 2, [wTft 7, wTft 8]⟩

/-- Witness for C2: fitting document 7 then extending with document 8
respectively establishes and preserves the alignment invariant. -/
theorem C2_witness : StoreInv wSt1 ∧ StoreInv wSt2 :=
  ⟨(C2_row_alignment wCvt wTft).1 (initState Nat) wSt1 [7] none (by rfl),
   (C2_row_alignment wCvt wTft).2 wSt1 wSt2 [8] none
     ⟨rfl, rfl, rfl⟩ (by rfl)⟩

/-- C5: on both fitting operations a supplied id sequence whose length
differs from the batch raises the shape-mismatch ValueError; a succeeding
call with supplied ids stores them whole (no truncation or padding); and
with no ids supplied no error is raised (for the incremental operation,
on a store holding at least one id, as any successfully built store
does). -/
theorem C5_shape_check {Doc : Type} (cvt : Doc → List Bool)
    (tft : Doc → List Rat) :
    (∀ (s : TfidfState Doc) (X : List Doc) (ys : List Int),
      X.length ≠ ys.length →
      TfidfRetrieval_fit cvt tft s X (some ys) =
        Except.error "Shapes of X and y do not match." ∧
      TfidfRetrieval_extend cvt tft s X (some ys) =
        Except.error "Shapes of X and y do not match.") ∧
    (∀ (s s' : TfidfState Doc) (X : List Doc) (ys : List Int),
      TfidfRetrieval_fit cvt tft s X (some ys) = Except.ok s' →
        ys.length = X.length ∧ s'._y = ys) ∧
    (∀ (s s' : TfidfState Doc) (X : List Doc) (ys : List Int),
      TfidfRetrieval_extend cvt tft s X (some ys) = Except.ok s' →
        ys.length = X.length ∧ s'._y = s._y ++ ys) ∧
    (∀ (s : TfidfState Doc) (X : List Doc), ∃ s',
      TfidfRetrieval_fit cvt tft s X none = Except.ok s') ∧
    (∀ (s : TfidfState Doc) (X : List Doc), s._y ≠ [] → ∃ s',
      TfidfRetrieval_extend cvt tft s X none = Except.ok s') := by
  refine ⟨?_, ?_, ?_, ?_, ?_⟩
  · intro s X ys hne
    rw [fit_some_eq, extend_some_eq]
    constructor
    · rw [if_neg hne]
    · rw [if_neg hne]
  · intro s s' X ys h
    rw [fit_some_eq] at h
    by_cases hlen : X.length = ys.length
    · rw [if_pos hlen] at h
      simp only [Except.ok.injEq] at h
      rw [← h]
      exact ⟨hlen.symm, rfl⟩
    · rw [if_neg hlen] at h
      exact absurd h (by simp)
  · intro s s' X ys h
    rw [extend_some_eq] at h
    by_cases hlen : X.length = ys.length
    · rw [if_pos hlen] at h
      rcases hm : s._y.max? with _ | m
      all_goals simp only [hm, Except.ok.injEq] at h
      · exact absurd h (by simp)
      · rw [← h]
        exact ⟨hlen.symm, rfl⟩
    · rw [if_neg hlen] at h
      exact absurd h (by simp)
  · intro s X
    rw [fit_none_eq]
    exact ⟨_, rfl⟩
  · intro s X hne
    rw [extend_none_eq]
    rcases hm : s._y.max? with _ | m
    · exact absurd (List.max?_eq_none_iff.mp hm) hne
    · exact ⟨_, rfl⟩

/-- Witness for C5: a mismatched id sequence on fit errors, and an
id-free extension of a one-document store succeeds. -/
theorem C5_witness :
    TfidfRetrieval_fit wCvt wTft (initState Nat) [7] (some [0, 1]) =
      Except.error "Shapes of X and y do not match." ∧
    ∃ s', TfidfRetrieval_extend wCvt wTft wSt1 [8] none = Except.ok s' :=
  ⟨((C5_shape_check wCvt wTft).1 (initState Nat) [7] [0, 1] (by decide)).1,
   (C5_shape_check wCvt wTft).2.2.2.2 wSt1 [8] (by decide)⟩

/-- C6: extending with no explicit ids a store whose maximum stored id is
m appends exactly the consecutive ids m+1, m+2, ..., m+n for a batch of n
documents: the appended block is the enumerated range, its members are
all at least m+1, and m+1 itself is a member exactly when the batch is
nonempty (so the minimum newly assigned id is m+1). -/
theorem C6_auto_ids {Doc : Type} (cvt : Doc → List Bool)
    (tft : Doc → List Rat) (s s' : TfidfState Doc) (X : List Doc) (m : Int)
    (hm : s._y.max? = some m)
    (h : TfidfRetrieval_extend cvt tft s X none = Except.ok s') :
    s'._y = s._y ++
      (List.range X.length).map (fun (i : Nat) => m + 1 + (i : Int)) ∧
    (∀ d ∈ (List.range X.length).map (fun (i : Nat) => m + 1 + (i : Int)),
      m + 1 ≤ d) ∧
    ((m + 1) ∈ (List.range X.length).map (fun (i : Nat) => m + 1 + (i : Int)) ↔
      X ≠ []) := by
  rw [extend_none_eq] at h
  simp only [hm, Except.ok.injEq] at h
  refine ⟨by rw [← h], ?_, ?_⟩
  · intro d hd
    simp only [List.mem_map, List.mem_range] at hd
    obtain ⟨i, _, rfl⟩ := hd
    omega
  · simp only [List.mem_map, List.mem_range]
    constructor
    · rintro ⟨i, hi, -⟩
      intro hX
      rw [hX] at hi
      simp at hi
    · intro hX
      refine ⟨0, ?_, by simp⟩
      have : X.length ≠ 0 := fun hz => hX (List.length_eq_zero.mp hz)
      omega

/-- Witness for C6 at the one-document extension of the witness store. -/
theorem C6_witness :
    wSt2._y = wSt1._y ++
      (List.range ([8] : List Nat).length).map
        (fun (i : Nat) => (0 : Int) + 1 + (i : Int)) ∧
    (∀ d ∈ (List.range ([8] : List Nat).length).map
        (fun (i : Nat) => (0 : Int) + 1 + (i : Int)), (0 : Int) + 1 ≤ d) ∧
    (((0 : Int) + 1) ∈ (List.range ([8] : List Nat).length).map
        (fun (i : Nat) => (0 : Int) + 1 + (i : Int)) ↔ ([8] : List Nat) ≠ []) :=
  C6_auto_ids wCvt wTft wSt1 wSt2 [8] 0 (by decide) (by rfl)

/-- C9: the incremental fit only appends — every pre-existing row of the
boolean matrix, of the weighted matrix, and every pre-existing id is
unchanged at its original position, and all three row counts and the
document count grow by exactly the batch size. -/
theorem C9_append_only {Doc : Type} (cvt : Doc → List Bool)
    (tft : Doc → List Rat) (s s' : TfidfState Doc) (X : List Doc)
    (y : Option (List Int))
    (h : TfidfRetrieval_extend cvt tft s X y = Except.ok s') :
    (∀ i, i < s._inv_X.length → s'._inv_X[i]? = s._inv_X[i]?) ∧
    (∀ i, i < s._X.length → s'._X[i]? = s._X[i]?) ∧
    (∀ i, i < s._y.length → s'._y[i]? = s._y[i]?) ∧
    s'._inv_X.length = s._inv_X.length + X.length ∧
    s'._X.length = s._X.length + X.length ∧
    s'._y.length = s._y.length + X.length ∧
    s'.n_docs = s.n_docs + X.length := by
  have key : s'._inv_X = s._inv_X ++ X.map cvt ∧
      s'._X = s._X ++ X.map tft ∧
      (∃ tl : List Int, s'._y = s._y ++ tl ∧ tl.length = X.length) ∧
      s'.n_docs = s.n_docs + X.length := by
    cases y with
    | none =>
      rw [extend_none_eq] at h
      rcases hm : s._y.max? with _ | m
      all_goals simp only [hm, Except.ok.injEq] at h
      · exact absurd h (by simp)
      · rw [← h]
        exact ⟨rfl, rfl, ⟨_, rfl, by simp⟩, rfl⟩
    | some ys =>
      rw [extend_some_eq] at h
      by_cases hlen : X.length = ys.length
      · rw [if_pos hlen] at h
        rcases hm : s._y.max? with _ | m
        all_goals simp only [hm, Except.ok.injEq] at h
        · exact absurd h (by simp)
        · rw [← h]
          exact ⟨rfl, rfl, ⟨ys, rfl, hlen.symm⟩, rfl⟩
      · rw [if_neg hlen] at h
        exact absurd h (by simp)
  obtain ⟨k1, k2, ⟨tl, k3, k3l⟩, k4⟩ := key
  refine ⟨?_, ?_, ?_, ?_, ?_, ?_, k4⟩
  · intro i hi
    rw [k1, List.getElem?_append_left hi]
  · intro i hi
    rw [k2, List.getElem?_append_left hi]
  · intro i hi
    rw [k3, List.getElem?_append_left hi]
  · rw [k1]; simp
  · rw [k2]; simp
  · rw [k3]; simp [k3l]

/-- Witness for C9 at the one-document extension of the witness store. -/
theorem C9_witness :
    wSt2.n_docs = wSt1.n_docs + ([8] : List Nat).length :=
  (C9_append_only wCvt wTft wSt1 wSt2 [8] none (by rfl)).2.2.2.2.2.2

/-- C3: under the nearest-neighbor capability's contract (the ranked
local indices point into the matrix it was fitted on), every id returned
by query is the id of a row produced by the boolean matching step for the
same query — ranking never adds an unmatched document. -/
theorem C3_query_within_matches {Doc : Type} (cvt : Doc → List Bool)
    (tft : Doc → List Rat)
    (nnRank : List (List Rat) → List Rat → Nat → List Nat)
    (s : TfidfState Doc) (query : Doc) (k : Nat)
    (hnn : ∀ (M : List (List Rat)) (qv : List Rat) (n : Nat),
      ∀ i ∈ nnRank M qv n, i < M.length) :
    ∀ d ∈ TfidfRetrieval_query cvt tft nnRank s query k,
      d ∈ (TermMatch s._inv_X (cvt query)).map (fun i => s._y.getD i 0) := by
  intro d hd
  simp only [TfidfRetrieval_query] at hd
  split at hd
  · exact absurd hd (by simp)
  · obtain ⟨i, hi, rfl⟩ := List.mem_map.mp hd
    have hlt := hnn _ (tft query) _ i hi
    rw [List.length_map] at hlt
    have hlt' : i <
        ((TermMatch s._inv_X (cvt query)).map
          (fun j => s._y.getD j 0)).length := by
      rw [List.length_map]; exact hlt
    rw [List.getD_eq_getElem _ _ hlt']
    exact List.getElem_mem hlt'

/-- The nearest-neighbor capability used by the witnesses: the first
n_ret row indices, clipped to the matrix. -/
def wNN : List (List Rat) → List Rat → Nat → List Nat :=
  fun M _ n => List.range (min n M.length)

/-- A fitted one-document store whose document matches the query 0. -/
def wSt3 : TfidfState Nat :=
  ⟨[[true, false]], none, [0], 1, [wTft 0]⟩

/-- Witness for C3: the id returned on the matching store is the id of a
matched row. -/
theorem C3_witness :
    (0 : Int) ∈ (TermMatch wSt3._inv_X (wCvt 0)).map
      (fun i => wSt3._y.getD i 0) :=
  C3_query_within_matches wCvt wTft wNN wSt3 0 1
    (fun M qv n i hi => by
      have h2 := List.mem_range.mp
        (show i ∈ List.range (min n M.length) from hi)
      omega)
    0 (by decide)

/-- The metric bundle used by the witnesses (the metric values play no
role in the claims about evaluate's shape handling and keys). -/
def wRm : RankMetrics :=
  ⟨fun _ => 0, fun _ => 0, fun _ _ => 0⟩

/-- C4 counterexample: on nested judgments that do not mention the
returned document id, evaluate raises a KeyError — the missing entry is
not treated as relevance 0. -/
theorem C4_counterexample :
    evaluate wRm (fun _ : Unit => [5]) [(0, ())]
      (Judgments.nested [[(3, 1)]]) 20 VALID_METRICS =
      Except.error "KeyError" := rfl

/-- C4 amended: evaluate accepts both judgment shapes; in the flat
pair-keyed shape a missing entry is treated as relevance 0 and evaluate
never fails, but in the nested shape a missing query id raises an
IndexError and a missing document id raises a KeyError instead of
defaulting to 0. -/
theorem C4_judgment_shapes :
    (∀ (Q : Type) (rm : RankMetrics) (queryFn : Q → List Int)
      (X : List (Nat × Q)) (m : List ((Nat × Int) × Int)) (k : Nat)
      (metrics : List String), ∃ values,
      evaluate rm queryFn X (Judgments.flat m) k metrics =
        Except.ok values) ∧
    (∀ (m : List ((Nat × Int) × Int)) (qid : Nat) (docid : Int),
      (∀ p ∈ m, ¬(p.1.1 = qid ∧ p.1.2 = docid)) →
      lookupRelevance (Judgments.flat m) qid docid = Except.ok 0) ∧
    (∀ (mm : List (List (Int × Int))) (qid : Nat) (docid : Int)
      (d : List (Int × Int)), mm[qid]? = some d →
      (∀ p ∈ d, p.1 ≠ docid) →
      lookupRelevance (Judgments.nested mm) qid docid =
        Except.error "KeyError") ∧
    (∀ (mm : List (List (Int × Int))) (qid : Nat) (docid : Int),
      mm[qid]? = none →
      lookupRelevance (Judgments.nested mm) qid docid =
        Except.error "IndexError") := by
  refine ⟨?_, ?_, ?_, ?_⟩
  · intro Q rm queryFn X m k metrics
    have hrel : ∀ (qid : Nat) (l : List Int), ∃ r,
        relevancesOf (Judgments.flat m) qid l = Except.ok r := by
      intro qid l
      induction l with
      | nil => exact ⟨[], rfl⟩
      | cons a l ih =>
        obtain ⟨r, hr⟩ := ih
        refine ⟨(((m.find? (fun p => p.1.1 == qid && p.1.2 == a)).map
          (fun p => p.2)).getD 0) :: r, ?_⟩
        simp [relevancesOf, lookupRelevance, hr]
    have hcol : ∃ rs, collectRs queryFn (Judgments.flat m) X =
        Except.ok rs := by
      induction X with
      | nil => exact ⟨[], rfl⟩
      | cons p rest ih =>
        obtain ⟨rs, hrs⟩ := ih
        obtain ⟨r, hr⟩ := hrel p.1 (queryFn p.2)
        refine ⟨r :: rs, ?_⟩
        rw [show (p : Nat × Q) = (p.1, p.2) from rfl, collectRs]
        simp [hr, hrs]
    obtain ⟨rs, hrs⟩ := hcol
    exact ⟨buildValues rm rs k metrics, by simp [evaluate, hrs]⟩
  · intro m qid docid hmiss
    have hfind : m.find?
        (fun p => p.1.1 == qid && p.1.2 == docid) = none := by
      apply List.find?_eq_none.mpr
      intro p hp
      simp only [Bool.and_eq_true, beq_iff_eq]
      intro hc
      exact hmiss p hp ⟨hc.1, hc.2⟩
    simp [lookupRelevance, hfind]
  · intro mm qid docid d hget hmiss
    have hfind : d.find? (fun p => p.1 == docid) = none := by
      apply List.find?_eq_none.mpr
      intro p hp
      simpa using hmiss p hp
    simp [lookupRelevance, hget, hfind]
  · intro mm qid docid hget
    simp [lookupRelevance, hget]

/-- Witness for C4's amended claim at concrete judgment tables. -/
theorem C4_witness :
    (∃ values, evaluate wRm (fun _ : Unit => [5]) [(0, ())]
      (Judgments.flat []) 20 VALID_METRICS = Except.ok values) ∧
    lookupRelevance (Judgments.flat []) 0 5 = Except.ok 0 ∧
    lookupRelevance (Judgments.nested [[(3, 1)]]) 0 5 =
      Except.error "KeyError" ∧
    lookupRelevance (Judgments.nested []) 0 5 =
      Except.error "IndexError" :=
  ⟨C4_judgment_shapes.1 Unit wRm (fun _ => [5]) [(0, ())] [] 20
    VALID_METRICS,
   C4_judgment_shapes.2.1 [] 0 5 (by simp),
   C4_judgment_shapes.2.2.1 [[(3, 1)]] 0 5 [(3, 1)] rfl (by decide),
   C4_judgment_shapes.2.2.2 [] 0 5 rfl⟩

theorem mem_if_singleton {α : Type} (c : Prop) [Decidable c] (a b : α) :
    (a ∈ if c then [b] else []) ↔ (c ∧ a = b) := by
  split <;> simp_all

/-- Key membership of the assembled metric mapping: a name carries a
value exactly when it is a recognized metric name that was requested. -/
theorem mem_buildValues (rm : RankMetrics) (rs : List (List Int)) (k : Nat)
    (metrics : List String) (name : String) :
    (∃ v, (name, v) ∈ buildValues rm rs k metrics) ↔
      name ∈ VALID_METRICS ∧ name ∈ metrics := by
  constructor
  · rintro ⟨v, hv⟩
    simp only [buildValues, List.mem_append] at hv
    rcases hv with (h | h) | h
    all_goals
      obtain ⟨hc, heq⟩ := (mem_if_singleton _ _ _).mp h
    all_goals
      simp only [Prod.mk.injEq] at heq
    all_goals
      obtain ⟨rfl, -⟩ := heq
    all_goals
      exact ⟨by simp [VALID_METRICS], List.elem_iff.mp hc⟩
  · rintro ⟨hval, hmem⟩
    have hc : metrics.contains name = true := List.elem_iff.mpr hmem
    simp only [VALID_METRICS, List.mem_cons, List.not_mem_nil,
      or_false] at hval
    rcases hval with rfl | rfl | rfl
    · exact ⟨rm.mean_reciprocal_rank rs, by simp [buildValues, hc, hmem]⟩
    · exact ⟨rm.mean_average_precision rs, by simp [buildValues, hc, hmem]⟩
    · exact ⟨average_ndcg_at_k rm rs k, by simp [buildValues, hc, hmem]⟩

/-- C8: when every requested metric name is recognized, the mapping
returned by a successful evaluate has exactly the requested names as
keys. -/
theorem C8_metric_keys (Q : Type) (rm : RankMetrics)
    (queryFn : Q → List Int) (X : List (Nat × Q)) (Y : Judgments) (k : Nat)
    (metrics : List String) (values : List (String × Rat))
    (hv : ∀ name ∈ metrics, name ∈ VALID_METRICS)
    (h : evaluate rm queryFn X Y k metrics = Except.ok values) :
    ∀ name, (∃ v, (name, v) ∈ values) ↔ name ∈ metrics := by
  rcases hrs : collectRs queryFn Y X with e | rs
  · simp only [evaluate, hrs, bindError] at h
    exact absurd h (by simp)
  · simp only [evaluate, hrs, bindOk, Except.ok.injEq] at h
    rw [← h]
    intro name
    rw [mem_buildValues]
    exact ⟨fun hp => hp.2, fun hm => ⟨hv name hm, hm⟩⟩

/-- Witness for C8: requesting only the reciprocal-rank metric over an
empty query batch yields exactly that key. -/
theorem C8_witness :
    (∃ v, (("mean_reciprocal_rank", v) : String × Rat) ∈
      [(("mean_reciprocal_rank" : String), (0 : Rat))]) ↔
      "mean_reciprocal_rank" ∈ ["mean_reciprocal_rank"] :=
  C8_metric_keys Unit wRm (fun _ => []) [] (Judgments.flat []) 20
    ["mean_reciprocal_rank"] [("mean_reciprocal_rank", 0)]
    (by decide) rfl "mean_reciprocal_rank"

end Vec4ir
